import Mathlib

/-!
Shallow embedding of the bgxgame/backend authentication core
(src/auth.rs, src/error.rs, src/handlers.rs, src/models.rs) in Lean 4,
together with proofs settling the frozen claims about its specification.

Modelling conventions:
* Process environment variables (`std::env::var`) become an explicit
  `Env : String → Option String` argument.
* Wall-clock time (`Utc::now().timestamp()`, SQL `NOW()`) becomes an
  explicit `now : Nat` argument (Unix seconds).
* A Rust panic (`expect`/`unwrap`) is made explicit with the `PanicOr`
  type, so "never panics" is a statement about the embedding.
* The HMAC-SHA256 primitive of the `jsonwebtoken` crate and the Argon2id
  digest primitive of the `argon2` crate are external to the repository;
  they are universally quantified function parameters (`mac`, `digestFn`),
  so every theorem holds for the actual primitives as a special case,
  with their cryptographic assumptions appearing as explicit hypotheses.
* The two database tables this core touches (`users`, `refresh_tokens`)
  become lists of rows; the SQL statements of the handlers become the
  corresponding pure list operations.
-/

namespace BgxBackend

/-- Process environment: `std::env::var` modelled as a partial map. -/
def Env : Type := String → Option String

/-- Result of running Rust code that may panic: either a panic with its
message, or a normal value. -/
inductive PanicOr (α : Type) where
  | panicked (msg : String)
  | ok (val : α)
deriving Repr, DecidableEq

/-! ## String utilities used by the embedding -/

/-- Tests whether `pat` is a prefix of `l` (character lists). -/
def startsWithL : List Char → List Char → Bool
  | [], _ => true
  | _ :: _, [] => false
  | p :: ps, c :: cs => p = c && startsWithL ps cs

/-- Tests whether `pat` occurs as a contiguous substring of `l` (character lists);
models Rust `str::contains`. -/
def containsSubL (pat : List Char) : List Char → Bool
  | [] => pat.isEmpty
  | c :: rest => startsWithL pat (c :: rest) || containsSubL pat rest

/-- Rust `String::contains(pat)` on our string model. -/
def strContains (s pat : String) : Bool :=
  containsSubL pat.data s.data

/-! ## Error taxonomy (src/error.rs) -/

/-- A database-layer error as surfaced by sqlx from Postgres: the SQLSTATE
code of the underlying failure together with its display text (what
`e.to_string()` yields in `into_response`). -/
structure DbError where
  sqlstate : String
  message : String
deriving Repr, DecidableEq

/-- Error enum `AppError` (src/error.rs lines 11-34). `ValidationError` carries the
aggregated field errors. -/
inductive AppError where
  | Database (e : DbError)
  | Auth (msg : String)
  | NotFound (msg : String)
  | Forbidden (msg : String)
  | Internal
  | ValidationError (errors : List (String × List String))
  | BadRequest (msg : String)
deriving Repr, DecidableEq

/-- The HTTP response produced by `AppError::into_response`: status code
and the structured body `{status: "error", message, errors}`. -/
structure ErrorResponse where
  status : Nat
  message : String
  errors : Option (List (String × List String))
deriving Repr, DecidableEq

/-- Embedding of `AppError::into_response` (src/error.rs lines 36-92).  The `Database`
branch inspects the error's display text for the substring
`"duplicate key"`; the full text is only logged (`tracing::error!`),
never placed in the response body. -/
def into_response : AppError → ErrorResponse
  | .Database e =>
    if strContains e.message "duplicate key" then
      ⟨409, "记录已存在", none⟩
    else
      ⟨500, "数据库操作失败", none⟩
  | .Auth msg => ⟨401, msg, none⟩
  | .NotFound msg => ⟨404, msg, none⟩
  | .Forbidden msg => ⟨403, msg, none⟩
  | .ValidationError errs => ⟨400, "输入校验失败", some errs⟩
  | .BadRequest msg => ⟨400, msg, none⟩
  | .Internal => ⟨500, "服务器内部错误", none⟩

/-! ## JWT access tokens (src/auth.rs lines 43-74, 99-124)

A JWT is modelled as its decoded payload (the `Claims`) together with the
signature, which is the HMAC of the payload under the signing secret.
The HMAC primitive `mac` is a parameter: `encodeJwt`/`decodeJwt` mirror
`jsonwebtoken::encode`/`decode` for any choice of it. -/

/-- Struct `Claims` (src/auth.rs lines 45-50): subject (user id), username,
expiry timestamp (`usize`, Unix seconds). -/
structure Claims where
  sub : Int
  username : String
  exp : Nat
deriving Repr, DecidableEq

/-- A signed token: payload plus signature value. -/
structure Jwt where
  claims : Claims
  sig : Nat
deriving Repr, DecidableEq

/-- Embedding of `jsonwebtoken::encode` with `Header::default()` (HS256): sign the
serialized claims with the secret. -/
def encodeJwt (mac : String → Claims → Nat) (secret : String) (c : Claims) : Jwt :=
  ⟨c, mac secret c⟩

/-- Failure kinds of `jsonwebtoken::decode` relevant here. -/
inductive JwtError where
  | invalidSignature
  | expiredSignature
deriving Repr, DecidableEq

/-- Default leeway (seconds) of `jsonwebtoken::Validation::new`. -/
def jwtLeeway : Nat := 60

/-- Embedding of `jsonwebtoken::decode::<Claims>` with `Validation::new(Algorithm::HS256)`:
recompute the HMAC and compare, then validate `exp` against the wall
clock with the default 60-second leeway. -/
def decodeJwt (mac : String → Claims → Nat) (secret : String) (now : Nat)
    (t : Jwt) : Except JwtError Claims :=
  if t.sig ≠ mac secret t.claims then .error .invalidSignature
  else if t.claims.exp < now - jwtLeeway then .error .expiredSignature
  else .ok t.claims

/-- Access-token lifetime set in `create_jwt`: `Duration::minutes(15)`. -/
def accessTokenTtl : Nat := 15 * 60

/-- Embedding of `create_jwt` (src/auth.rs lines 54-74).  Reads `JWT_SECRET` from the
environment with `.expect("JWT_SECRET must be set")`: absence is a panic,
not a typed error.  `exp = now + 15 minutes`. -/
def create_jwt (mac : String → Claims → Nat) (env : Env)
    (user_id : Int) (username : String) (now : Nat) :
    PanicOr (Except String Jwt) :=
  let expiration := now + accessTokenTtl
  let claims : Claims := ⟨user_id, username, expiration⟩
  match env "JWT_SECRET" with
  | none => .panicked "JWT_SECRET must be set"
  | some secret => .ok (.ok (encodeJwt mac secret claims))

/-- Struct `AuthUser` (src/auth.rs lines 86-90). -/
structure AuthUser where
  id : Int
  username : String
deriving Repr, DecidableEq

/-- Embedding of `<AuthUser as FromRequestParts>::from_request_parts`
(src/auth.rs lines 99-124).  The bearer credential extracted from the
`Authorization` header is `none` when absent or malformed.  The secret is
`env("JWT_SECRET").unwrap_or("secret")`: a hard-coded fallback used only
on this verification path. -/
def from_request_parts (mac : String → Claims → Nat) (env : Env)
    (now : Nat) (bearer : Option Jwt) : Except AppError AuthUser :=
  match bearer with
  | none => .error (.Auth "Token 缺失或格式错误")
  | some t =>
    let secret := (env "JWT_SECRET").getD "secret"
    match decodeJwt mac secret now t with
    | .error _ => .error (.Auth "Token 已过期或无效")
    | .ok c => .ok ⟨c.sub, c.username⟩

/-! ## Password hashing (src/auth.rs lines 26-41)

The PHC encoded-hash string produced by the `argon2` crate has the shape
`$argon2id$v=19$m=19456,t=2,p=1$<salt>$<digest>`: six `$`-separated
groups.  The Argon2id digest primitive is the parameter `digestFn`
(password, salt ↦ digest); `hash_password` takes the freshly generated
salt (`SaltString::generate(&mut OsRng)`) as an explicit argument. -/

/-- Semantics of `.splitOn "$"` on character lists, used to parse
the PHC format. -/
def splitDollars : List Char → List (List Char)
  | [] => [[]]
  | c :: rest =>
    if c = '$' then [] :: splitDollars rest
    else
      match splitDollars rest with
      | [] => [[c]]
      | g :: gs => (c :: g) :: gs

/-- Version group of the PHC string for the crate's default Argon2 version. -/
def argonVersionGroup : String := "v=19"

/-- Params group of the PHC string for `Argon2::default()` cost parameters. -/
def argonParamsGroup : String := "m=19456,t=2,p=1"

/-- The PHC encoded hash string assembled from salt and digest. -/
def encodeHash (salt digest : String) : String :=
  "$argon2id$" ++ argonVersionGroup ++ "$" ++ argonParamsGroup ++ "$"
    ++ salt ++ "$" ++ digest

/-- Embedding of `PasswordHash::new`: parse the PHC string into (salt, digest);
`none` on anything malformed or in a foreign format. -/
def parseHash (s : String) : Option (String × String) :=
  match splitDollars s.data with
  | [l0, l1, l2, l3, salt, digest] =>
    if l0 = ([] : List Char) ∧ l1 = "argon2id".data
        ∧ l2 = argonVersionGroup.data ∧ l3 = argonParamsGroup.data then
      some (⟨salt⟩, ⟨digest⟩)
    else none
  | _ => none

/-- Embedding of `hash_password` (src/auth.rs lines 26-33): derive the digest from the
password and the fresh salt and return the PHC-encoded string.  The
`Err` branch exists only for internal encoding errors of the crate. -/
def hash_password (digestFn : String → String → String) (salt : String)
    (password : String) : Except String String :=
  .ok (encodeHash salt (digestFn password salt))

/-- Embedding of `verify_password` (src/auth.rs lines 35-41): parse the encoded hash;
on parse failure return `false`; otherwise recompute the digest from the
candidate password and the parsed salt and compare. -/
def verify_password (digestFn : String → String → String)
    (password password_hash : String) : Bool :=
  match parseHash password_hash with
  | none => false
  | some (salt, digest) => digestFn password salt == digest

/-! ## Refresh tokens (src/auth.rs lines 79-81)

`generate_refresh_token` is `Uuid::new_v4().to_string()`: 16 bytes from
the operating system's CSPRNG, with the RFC 4122 version nibble of byte 6
forced to `4` and the two variant bits of byte 8 forced to `10`, printed
as lowercase hyphenated hex.  The random bytes are the explicit
argument `bytes`. -/

/-- Lowercase hex digit for a value `< 16`. -/
def hexDigit (n : Nat) : Char :=
  if n < 10 then Char.ofNat (48 + n) else Char.ofNat (87 + n)

/-- Value of a lowercase hex digit. -/
def hexVal (c : Char) : Nat :=
  if c.toNat < 97 then c.toNat - 48 else c.toNat - 87

/-- Two lowercase hex digits per byte, high nibble first. -/
def hexBytes : List Nat → List Char
  | [] => []
  | b :: bs => hexDigit (b / 16) :: hexDigit (b % 16) :: hexBytes bs

/-- Inverse of `hexBytes`: fold consecutive digit pairs back into bytes. -/
def unhexPairs : List Char → List Nat
  | c₁ :: c₂ :: rest => (16 * hexVal c₁ + hexVal c₂) :: unhexPairs rest
  | _ => []

/-- Embedding of `Uuid::to_string`: hyphenated lowercase hex, groups of 4-2-2-2-6 bytes. -/
def uuidChars (bs : List Nat) : List Char :=
  hexBytes (bs.take 4)
    ++ '-' :: hexBytes ((bs.drop 4).take 2)
    ++ '-' :: hexBytes ((bs.drop 6).take 2)
    ++ '-' :: hexBytes ((bs.drop 8).take 2)
    ++ '-' :: hexBytes (bs.drop 10)

/-- The hyphenated UUID string of a 16-byte value. -/
def uuidString (bs : List Nat) : String := ⟨uuidChars bs⟩

/-- RFC 4122 version field: byte 6 becomes `(b & 0x0F) | 0x40`. -/
def setVersion (bs : List Nat) : List Nat :=
  bs.set 6 (bs.getD 6 0 % 16 + 64)

/-- RFC 4122 variant field: byte 8 becomes `(b & 0x3F) | 0x80`. -/
def setVariant (bs : List Nat) : List Nat :=
  bs.set 8 (bs.getD 8 0 % 64 + 128)

/-- The byte sequence of `Uuid::new_v4()` given the 16 random bytes. -/
def uuidV4Bytes (bs : List Nat) : List Nat := setVariant (setVersion bs)

/-- Embedding of `generate_refresh_token` (src/auth.rs lines 79-81):
`Uuid::new_v4().to_string()` as a function of the 16 CSPRNG bytes. -/
def generate_refresh_token (bytes : List Nat) : String :=
  uuidString (uuidV4Bytes bytes)

/-- Decoder for the UUID string: strip hyphens, fold hex digit pairs. -/
def uuidDecode (s : String) : List Nat :=
  unhexPairs (s.data.filter (fun c => c != '-'))

/-! ## The two tables this core touches, and the auth handlers
(src/handlers.rs lines 200-273, src/models.rs lines 74-113) -/

/-- A row of the `users` table (the `User` model, src/models.rs
lines 74-81). -/
structure UserRow where
  id : Int
  username : String
  password_hash : String
  created_at : Option Nat
deriving Repr, DecidableEq

/-- A row of the `refresh_tokens` table: owning user id, token string,
expiry timestamp. -/
structure RefreshRow where
  user_id : Int
  token : String
  expires_at : Nat
deriving Repr, DecidableEq

/-- The database state visible to this core. -/
structure Db where
  users : List UserRow
  refresh_tokens : List RefreshRow
deriving Repr, DecidableEq

/-- Struct `AuthResponse` (src/models.rs lines 97-102); the access token is
carried in its decoded form. -/
structure AuthResponse where
  token : Jwt
  refresh_token : Option String
  username : String
deriving Repr, DecidableEq

/-- Query `SELECT * FROM users WHERE username = $1` with `fetch_optional`. -/
def findUserByName (db : Db) (username : String) : Option UserRow :=
  db.users.find? (fun u => u.username == username)

/-- The refresh lookup of `refresh_handler` (src/handlers.rs lines
254-261): `SELECT r.user_id, u.username FROM refresh_tokens r JOIN users
u ON r.user_id = u.id WHERE r.token = $1 AND r.expires_at > NOW()` with
`fetch_optional`. -/
def refreshLookup (db : Db) (token : String) (now : Nat) :
    Option (Int × String) :=
  match db.refresh_tokens.find?
      (fun r => r.token == token && now < r.expires_at) with
  | none => none
  | some r =>
    match db.users.find? (fun u => u.id == r.user_id) with
    | none => none
    | some u => some (r.user_id, u.username)

/-- Display text sqlx gives a Postgres unique-constraint violation. -/
def pgUniqueViolationMessage (constraintName : String) : String :=
  "error returned from database: duplicate key value violates unique constraint \x22"
    ++ constraintName ++ "\x22"

/-- SQLSTATE of a Postgres uniqueness violation. -/
def pgUniqueViolationState : String := "23505"

/-- The `DbError` Postgres raises when `INSERT INTO users` hits the
unique constraint on `username`. -/
def usersUniqueViolation : DbError :=
  ⟨pgUniqueViolationState, pgUniqueViolationMessage "users_username_key"⟩

/-- Fresh serial id for an inserted user row. -/
def nextUserId (db : Db) : Int :=
  (db.users.map (fun u => u.id)).foldr max 0 + 1

/-- Query `INSERT INTO users (username, password_hash) VALUES ($1, $2)`:
the unique constraint on `username` makes the insert fail with a
uniqueness violation when the name is taken. -/
def insertUser (db : Db) (username password_hash : String) (now : Nat) :
    Except DbError Db :=
  if db.users.any (fun u => u.username == username) then
    .error usersUniqueViolation
  else
    .ok { db with
      users := db.users ++ [⟨nextUserId db, username, password_hash, some now⟩] }

/-- Embedding of `register_handler` (src/handlers.rs lines 202-210): hash the
password (errors become `AppError::Internal`), insert the user (database
errors propagate via `?` as `AppError::Database`), answer with the
success message. -/
def register_handler (digestFn : String → String → String) (salt : String)
    (db : Db) (now : Nat) (username password : String) :
    Except AppError (String × Db) :=
  match hash_password digestFn salt password with
  | .error _ => .error .Internal
  | .ok h =>
    match insertUser db username h now with
    | .error e => .error (.Database e)
    | .ok db' => .ok ("User registered successfully", db')

/-- Refresh-token lifetime set in `login_handler`: `Duration::days(7)`. -/
def refreshTokenTtl : Nat := 7 * 24 * 60 * 60

/-- Embedding of `login_handler` (src/handlers.rs lines 212-246).  Unknown username
and wrong password both produce `AppError::Auth("用户名或密码错误")`.
On success: mint the access token, persist a fresh refresh token
(`newRefreshToken` stands for the `generate_refresh_token()` draw), and
answer with both tokens.  Returns the response paired with the updated
database. -/
def login_handler (digestFn : String → String → String)
    (mac : String → Claims → Nat) (env : Env) (db : Db) (now : Nat)
    (newRefreshToken : String) (username password : String) :
    PanicOr (Except AppError AuthResponse) × Db :=
  match findUserByName db username with
  | none => (.ok (.error (.Auth "用户名或密码错误")), db)
  | some user =>
    if verify_password digestFn password user.password_hash = false then
      (.ok (.error (.Auth "用户名或密码错误")), db)
    else
      match create_jwt mac env user.id user.username now with
      | .panicked m => (.panicked m, db)
      | .ok (.error _) => (.ok (.error .Internal), db)
      | .ok (.ok jwt) =>
        let expires_at := now + refreshTokenTtl
        let db' := { db with
          refresh_tokens :=
            db.refresh_tokens ++ [⟨user.id, newRefreshToken, expires_at⟩] }
        (.ok (.ok ⟨jwt, some newRefreshToken, user.username⟩), db')

/-- Embedding of `refresh_handler` (src/handlers.rs lines 249-273).  One query both
looks the token up and filters out expired rows; a missing row of either
cause yields the single `AppError::Auth("登录已过期，请重新登录")`.  On
success a new access token is minted and the presented refresh token is
returned unchanged; no row is deleted, updated or inserted.  Returns the
response paired with the (unchanged) database. -/
def refresh_handler (mac : String → Claims → Nat) (env : Env) (db : Db)
    (now : Nat) (refresh_token : String) :
    PanicOr (Except AppError AuthResponse) × Db :=
  match refreshLookup db refresh_token now with
  | none => (.ok (.error (.Auth "登录已过期，请重新登录")), db)
  | some (uid, uname) =>
    match create_jwt mac env uid uname now with
    | .panicked m => (.panicked m, db)
    | .ok (.error _) => (.ok (.error .Internal), db)
    | .ok (.ok jwt) =>
      (.ok (.ok ⟨jwt, some refresh_token, uname⟩), db)

/-! ## JSON serialization of the `User` model (src/models.rs lines 74-81)

`User` derives `Serialize` with `#[serde(skip)]` on `password_hash`, so
the generated serializer emits `id`, `username` and `created_at` only. -/

/-- JSON values, enough for serde output. -/
inductive Json where
  | null
  | num (n : Int)
  | str (s : String)
  | arr (elems : List Json)
  | obj (fields : List (String × Json))
deriving Repr

/-- serde serialization of `Option<T>`: `null` or the value. -/
def optNumJson : Option Nat → Json
  | none => .null
  | some n => .num n

/-- The serializer `#[derive(Serialize)]` generates for `User`:
`password_hash` carries `#[serde(skip)]` and is omitted. -/
def serializeUser (u : UserRow) : Json :=
  .obj [("id", .num u.id), ("username", .str u.username),
        ("created_at", optNumJson u.created_at)]

/-! ## Concrete instances used to evaluate the embedding -/

/-- An environment with no variables set (`JWT_SECRET` absent). -/
def envEmpty : Env := fun _ => none

/-- An environment supplying only `JWT_SECRET`. -/
def envDemo : Env := fun k => if k = "JWT_SECRET" then some "s3cr3t" else none

/-- A concrete stand-in for the HMAC primitive, used to evaluate the
generic theorems on closed inputs. -/
def macDemo : String → Claims → Nat :=
  fun s c => s.length + c.exp + c.username.length

/-- A database with one user and no refresh tokens. -/
def dbNoToken : Db := ⟨[⟨1, "alice", "h", none⟩], []⟩

/-- A database whose only refresh-token row is expired at time 100. -/
def dbExpiredToken : Db := ⟨[⟨1, "alice", "h", none⟩], [⟨1, "tok", 50⟩]⟩

/-- A database whose only refresh-token row is valid at time 5. -/
def dbValidToken : Db := ⟨[⟨1, "alice", "h", none⟩], [⟨1, "tok", 100⟩]⟩

/-! ## Claims -/

/-- Claim C1: The claim says the signing secret is mandatory on both paths
and that no verification-only default key exists.  The code contradicts
it: with `JWT_SECRET` absent, `from_request_parts` falls back to the
hard-coded key `"secret"` and accepts a token signed under that key,
while `create_jwt` panics rather than failing startup. -/
theorem c1_verification_only_fallback_key_exists :
    from_request_parts macDemo envEmpty 1000
        (some (encodeJwt macDemo "secret" ⟨7, "alice", 2000⟩))
      = .ok ⟨7, "alice"⟩
    ∧ create_jwt macDemo envEmpty 7 "alice" 1000
      = .panicked "JWT_SECRET must be set" := by
  constructor
  · simp [from_request_parts, envEmpty, decodeJwt, encodeJwt, jwtLeeway]
  · rfl

/-- Claim C4: The claim says `create_jwt` always returns a typed result
and never panics, even with the signing secret absent.  The code
contradicts it: with `JWT_SECRET` unset the `.expect` in `create_jwt`
panics with "JWT_SECRET must be set". -/
theorem c4_create_jwt_panics_without_secret :
    create_jwt macDemo envEmpty 1 "alice" 0
      = .panicked "JWT_SECRET must be set" := rfl

/-- Counterexample to claim C2: The claim says redeeming an unknown token
fails with a `NotFound` kind and an expired one with a distinct
`Expired` kind, distinguishable to the caller.  On the code both
scenarios produce the identical `AppError::Auth` value (`dbNoToken` has
no row for "tok"; `dbExpiredToken`'s row is expired at time 100), so the
kinds are neither `NotFound`/`Expired` nor distinguishable. -/
theorem c2_unknown_and_expired_indistinguishable :
    (refresh_handler macDemo envDemo dbNoToken 100 "tok").1
      = .ok (.error (.Auth "登录已过期，请重新登录"))
    ∧ (refresh_handler macDemo envDemo dbExpiredToken 100 "tok").1
      = .ok (.error (.Auth "登录已过期，请重新登录"))
    ∧ (refresh_handler macDemo envDemo dbNoToken 100 "tok").1
      = (refresh_handler macDemo envDemo dbExpiredToken 100 "tok").1 := by
  refine ⟨rfl, rfl, rfl⟩

/-- Claim C2 as amended: For every redeem call: if no stored row matches
the presented token *or* the matching row is expired, the operation
fails with the single `AppError::Auth` kind ("登录已过期，请重新登录",
HTTP 401); otherwise it returns the owning user's id and username,
joined from the user entity, together with a fresh access token. -/
theorem c2_redeem_amended
    (mac : String → Claims → Nat) (env : Env) (db : Db) (now : Nat)
    (tok s : String) (hs : env "JWT_SECRET" = some s) :
    (refreshLookup db tok now = none →
      (refresh_handler mac env db now tok).1
        = .ok (.error (.Auth "登录已过期，请重新登录"))
      ∧ into_response (.Auth "登录已过期，请重新登录")
        = ⟨401, "登录已过期，请重新登录", none⟩)
    ∧ (∀ uid uname, refreshLookup db tok now = some (uid, uname) →
      ∃ r ∈ db.refresh_tokens, ∃ u ∈ db.users,
        r.token = tok ∧ now < r.expires_at ∧ u.id = r.user_id
        ∧ uid = r.user_id ∧ uname = u.username
        ∧ (refresh_handler mac env db now tok).1
          = .ok (.ok ⟨encodeJwt mac s ⟨uid, uname, now + accessTokenTtl⟩,
                      some tok, uname⟩)) := by
  constructor
  · intro h
    refine ⟨?_, rfl⟩
    simp [refresh_handler, h]
  · intro uid uname h
    cases hr : db.refresh_tokens.find?
        (fun r => r.token == tok && now < r.expires_at) with
    | none => simp [refreshLookup, hr] at h
    | some r =>
      cases hu : db.users.find? (fun u => u.id == r.user_id) with
      | none => simp [refreshLookup, hr, hu] at h
      | some u =>
        have hmem_r := List.mem_of_find?_eq_some hr
        have hp_r := List.find?_some hr
        have hmem_u := List.mem_of_find?_eq_some hu
        have hp_u := List.find?_some hu
        simp only [Bool.and_eq_true, beq_iff_eq, decide_eq_true_eq] at hp_r hp_u
        obtain ⟨huid, huname⟩ : r.user_id = uid ∧ u.username = uname := by
          simpa [refreshLookup, hr, hu] using h
        refine ⟨r, hmem_r, u, hmem_u, hp_r.1, hp_r.2, hp_u,
          huid.symm, huname.symm, ?_⟩
        simp [refresh_handler, refreshLookup, hr, hu, create_jwt, hs,
          ← huid, ← huname]

/-- Witness for C2 (amended): concrete evaluation of the failure branch
with the secret configured. -/
theorem c2_redeem_amended_witness :
    (refresh_handler macDemo envDemo dbNoToken 100 "tok").1
      = .ok (.error (.Auth "登录已过期，请重新登录"))
    ∧ into_response (.Auth "登录已过期，请重新登录")
      = ⟨401, "登录已过期，请重新登录", none⟩ :=
  (c2_redeem_amended macDemo envDemo dbNoToken 100 "tok" "s3cr3t" rfl).1 rfl

/-- Claim C9: Login failure is indistinguishable between causes: an
unknown username and a known username with a non-verifying password
produce the identical `AppError::Auth` value, and its response is the
same 401 with the same message, revealing nothing about whether the
username is registered. -/
theorem c9_login_failure_indistinguishable
    (digestFn : String → String → String) (mac : String → Claims → Nat)
    (env : Env) (db₁ db₂ : Db) (now₁ now₂ : Nat) (rt₁ rt₂ : String)
    (u₁ p₁ u₂ p₂ : String) (user : UserRow)
    (h₁ : findUserByName db₁ u₁ = none)
    (h₂ : findUserByName db₂ u₂ = some user)
    (h₃ : verify_password digestFn p₂ user.password_hash = false) :
    (login_handler digestFn mac env db₁ now₁ rt₁ u₁ p₁).1
      = .ok (.error (.Auth "用户名或密码错误"))
    ∧ (login_handler digestFn mac env db₂ now₂ rt₂ u₂ p₂).1
      = .ok (.error (.Auth "用户名或密码错误"))
    ∧ into_response (.Auth "用户名或密码错误")
      = ⟨401, "用户名或密码错误", none⟩ := by
  refine ⟨?_, ?_, rfl⟩
  · simp [login_handler, h₁]
  · simp [login_handler, h₂, h₃]

/-- Witness for C9: empty database for the unknown-username side; a
database whose user carries an unparsable stored hash for the
wrong-password side. -/
theorem c9_login_failure_indistinguishable_witness :
    (login_handler (fun p _ => p) macDemo envDemo ⟨[], []⟩ 0 "rt" "bob" "pw").1
      = .ok (.error (.Auth "用户名或密码错误"))
    ∧ (login_handler (fun p _ => p) macDemo envDemo dbNoToken 0 "rt" "alice" "pw").1
      = .ok (.error (.Auth "用户名或密码错误"))
    ∧ into_response (.Auth "用户名或密码错误")
      = ⟨401, "用户名或密码错误", none⟩ :=
  c9_login_failure_indistinguishable (fun p _ => p) macDemo envDemo
    ⟨[], []⟩ dbNoToken 0 0 "rt" "rt" "bob" "pw" "alice" "pw"
    ⟨1, "alice", "h", none⟩ rfl rfl rfl

/-- Claim C10: The stored password hash never appears in a serialized
`User`: changing only `password_hash` leaves the JSON output unchanged,
because the field carries `#[serde(skip)]`. -/
theorem c10_password_hash_never_serialized (u : UserRow) (ph : String) :
    serializeUser { u with password_hash := ph } = serializeUser u := rfl

/-- Claim C6: With the signing secret configured, issuing an access token
and immediately verifying it through the AuthGate succeeds and yields
the issued user id and username; the token's `exp` is `now + 15min`,
hence within the configured ttl of issuance. -/
theorem c6_issue_then_verify_roundtrip
    (mac : String → Claims → Nat) (env : Env) (s : String)
    (uid : Int) (name : String) (now : Nat)
    (hs : env "JWT_SECRET" = some s) :
    create_jwt mac env uid name now
      = .ok (.ok (encodeJwt mac s ⟨uid, name, now + accessTokenTtl⟩))
    ∧ from_request_parts mac env now
        (some (encodeJwt mac s ⟨uid, name, now + accessTokenTtl⟩))
      = .ok ⟨uid, name⟩
    ∧ now + accessTokenTtl - now ≤ accessTokenTtl := by
  refine ⟨?_, ?_, by omega⟩
  · simp [create_jwt, hs]
  · have hexp : ¬ (now + accessTokenTtl < now - jwtLeeway) := by
      simp [accessTokenTtl, jwtLeeway]; omega
    simp [from_request_parts, hs, decodeJwt, encodeJwt, hexp]

/-- Witness for C6: concrete issuance and gate verification. -/
theorem c6_issue_then_verify_roundtrip_witness :
    create_jwt macDemo envDemo 7 "alice" 1000
      = .ok (.ok (encodeJwt macDemo "s3cr3t" ⟨7, "alice", 1000 + accessTokenTtl⟩))
    ∧ from_request_parts macDemo envDemo 1000
        (some (encodeJwt macDemo "s3cr3t" ⟨7, "alice", 1000 + accessTokenTtl⟩))
      = .ok ⟨7, "alice"⟩
    ∧ 1000 + accessTokenTtl - 1000 ≤ accessTokenTtl :=
  c6_issue_then_verify_roundtrip macDemo envDemo "s3cr3t" 7 "alice" 1000 rfl

/-- The refresh handler never writes to the database: its second
component is the input state on every path. -/
theorem refresh_handler_preserves_db
    (mac : String → Claims → Nat) (env : Env) (db : Db) (now : Nat)
    (tok : String) :
    (refresh_handler mac env db now tok).2 = db := by
  unfold refresh_handler
  cases hl : refreshLookup db tok now with
  | none => simp
  | some p =>
    obtain ⟨uid, uname⟩ := p
    cases hc : create_jwt mac env uid uname now with
    | panicked m => simp [hc]
    | ok r => cases r with
      | error e => simp [hc]
      | ok jwt => simp [hc]

/-- Claim C7: Static rotation: refreshing never writes to the store (no
delete, update or insert on any path); a successful refresh returns the
owner identity together with the very refresh-token string that was
presented, leaves the stored rows unchanged, and the identical call on
the resulting state yields the identical outcome — the token stays
redeemable repeatedly while it is unexpired. -/
theorem c7_static_rotation_frame
    (mac : String → Claims → Nat) (env : Env) (db : Db) (now : Nat)
    (tok s : String) (uid : Int) (uname : String)
    (h : refreshLookup db tok now = some (uid, uname))
    (hs : env "JWT_SECRET" = some s) :
    refresh_handler mac env db now tok
      = (.ok (.ok ⟨encodeJwt mac s ⟨uid, uname, now + accessTokenTtl⟩,
                   some tok, uname⟩), db)
    ∧ refresh_handler mac env (refresh_handler mac env db now tok).2 now tok
      = refresh_handler mac env db now tok
    ∧ ∀ db₀ now₀ tok₀, (refresh_handler mac env db₀ now₀ tok₀).2 = db₀ := by
  have h1 : refresh_handler mac env db now tok
      = (.ok (.ok ⟨encodeJwt mac s ⟨uid, uname, now + accessTokenTtl⟩,
                   some tok, uname⟩), db) := by
    simp [refresh_handler, h, create_jwt, hs]
  have h2 : (refresh_handler mac env db now tok).2 = db := by rw [h1]
  refine ⟨h1, ?_, fun db₀ now₀ tok₀ =>
    refresh_handler_preserves_db mac env db₀ now₀ tok₀⟩
  rw [h2]

/-- Witness for C7: the concrete valid-token database; the handler
evaluates to a success and the conclusion is checked on it. -/
theorem c7_static_rotation_frame_witness :
    refresh_handler macDemo envDemo dbValidToken 5 "tok"
      = (.ok (.ok ⟨encodeJwt macDemo "s3cr3t" ⟨1, "alice", 5 + accessTokenTtl⟩,
                   some "tok", "alice"⟩), dbValidToken)
    ∧ refresh_handler macDemo envDemo
        (refresh_handler macDemo envDemo dbValidToken 5 "tok").2 5 "tok"
      = refresh_handler macDemo envDemo dbValidToken 5 "tok"
    ∧ ∀ db₀ now₀ tok₀,
        (refresh_handler macDemo envDemo db₀ now₀ tok₀).2 = db₀ :=
  c7_static_rotation_frame macDemo envDemo dbValidToken 5 "tok" "s3cr3t"
    1 "alice" (by rfl) rfl

/-- Claim C8: Database failures whose Postgres display text marks a
uniqueness violation (SQLSTATE 23505, message containing "duplicate
key") are classified as 409 conflicts; every other database failure
becomes a 500 whose body carries only a fixed generic message — the
underlying detail never reaches the caller.  Registering an existing
username hits exactly this conflict path. -/
theorem c8_database_error_taxonomy
    (e : DbError) (digestFn : String → String → String) (salt : String)
    (db : Db) (now : Nat) (u p : String)
    (hpg : e.sqlstate = pgUniqueViolationState
            ↔ strContains e.message "duplicate key" = true) :
    (e.sqlstate = pgUniqueViolationState →
      into_response (.Database e) = ⟨409, "记录已存在", none⟩)
    ∧ (e.sqlstate ≠ pgUniqueViolationState →
      into_response (.Database e) = ⟨500, "数据库操作失败", none⟩)
    ∧ (db.users.any (fun x => x.username == u) = true →
      register_handler digestFn salt db now u p
        = .error (.Database usersUniqueViolation)
      ∧ into_response (.Database usersUniqueViolation)
        = ⟨409, "记录已存在", none⟩) := by
  refine ⟨?_, ?_, ?_⟩
  · intro h
    have := hpg.mp h
    simp [into_response, this]
  · intro h
    have : strContains e.message "duplicate key" = false := by
      cases hc : strContains e.message "duplicate key" with
      | false => rfl
      | true => exact absurd (hpg.mpr hc) h
    simp [into_response, this]
  · intro h
    refine ⟨?_, ?_⟩
    · simp [register_handler, hash_password, insertUser, h]
    · have : strContains usersUniqueViolation.message "duplicate key" = true := by
        decide
      simp [into_response, this]

/-- Witness for C8: the uniqueness-violation error raised by registering
the already-present username "alice". -/
theorem c8_database_error_taxonomy_witness :
    (usersUniqueViolation.sqlstate = pgUniqueViolationState →
      into_response (.Database usersUniqueViolation) = ⟨409, "记录已存在", none⟩)
    ∧ (usersUniqueViolation.sqlstate ≠ pgUniqueViolationState →
      into_response (.Database usersUniqueViolation)
        = ⟨500, "数据库操作失败", none⟩)
    ∧ (dbNoToken.users.any (fun x => x.username == "alice") = true →
      register_handler (fun a _ => a) "somesalt" dbNoToken 3 "alice" "pw"
        = .error (.Database usersUniqueViolation)
      ∧ into_response (.Database usersUniqueViolation)
        = ⟨409, "记录已存在", none⟩) :=
  c8_database_error_taxonomy usersUniqueViolation (fun a _ => a) "somesalt"
    dbNoToken 3 "alice" "pw" (by decide)

/-! ### PHC parsing lemmas for C5 -/

/-- Splitting a dollar-led list peels an empty first group. -/
theorem splitDollars_dollar_cons (l : List Char) :
    splitDollars ('$' :: l) = [] :: splitDollars l := by
  simp [splitDollars]

/-- Prepending dollar-free characters extends the first group. -/
theorem splitDollars_append_free (a : List Char) (ha : '$' ∉ a)
    (l : List Char) (g : List Char) (gs : List (List Char))
    (hl : splitDollars l = g :: gs) :
    splitDollars (a ++ l) = (a ++ g) :: gs := by
  induction a with
  | nil => simpa using hl
  | cons c a ih =>
    have hc : ¬ (c = '$') := fun hcEq => ha (hcEq ▸ List.mem_cons_self c a)
    have ha' : '$' ∉ a := fun hmem => ha (List.mem_cons_of_mem c hmem)
    simp only [List.cons_append, splitDollars, hc, if_false]
    rw [show a.append l = a ++ l from rfl, ih ha']

/-- A dollar-free list is a single group. -/
theorem splitDollars_free (l : List Char) (h : '$' ∉ l) :
    splitDollars l = [l] := by
  have := splitDollars_append_free l h [] [] [] rfl
  simpa using this

/-- Parsing inverts encoding whenever salt and digest are dollar-free,
as the crate's base64 salt and digest always are. -/
theorem parseHash_encodeHash (salt digest : String)
    (hs : '$' ∉ salt.data) (hd : '$' ∉ digest.data) :
    parseHash (encodeHash salt digest) = some (salt, digest) := by
  have h5 : splitDollars digest.data = [digest.data] :=
    splitDollars_free digest.data hd
  have h4 : splitDollars ('$' :: digest.data) = [[], digest.data] := by
    rw [splitDollars_dollar_cons, h5]
  have h3 : splitDollars (salt.data ++ '$' :: digest.data)
      = [salt.data, digest.data] := by
    have := splitDollars_append_free salt.data hs _ _ _ h4
    simpa using this
  have h2 : splitDollars (argonParamsGroup.data ++ '$' :: (salt.data ++ '$' :: digest.data))
      = [argonParamsGroup.data, salt.data, digest.data] := by
    have hp : '$' ∉ argonParamsGroup.data := by decide
    have := splitDollars_append_free argonParamsGroup.data hp _ _ _
      (by rw [splitDollars_dollar_cons, h3])
    simpa using this
  have h1 : splitDollars (argonVersionGroup.data
        ++ '$' :: (argonParamsGroup.data ++ '$' :: (salt.data ++ '$' :: digest.data)))
      = [argonVersionGroup.data, argonParamsGroup.data, salt.data, digest.data] := by
    have hv : '$' ∉ argonVersionGroup.data := by decide
    have := splitDollars_append_free argonVersionGroup.data hv _ _ _
      (by rw [splitDollars_dollar_cons, h2])
    simpa using this
  have h0 : splitDollars ("argon2id".data
        ++ '$' :: (argonVersionGroup.data
          ++ '$' :: (argonParamsGroup.data ++ '$' :: (salt.data ++ '$' :: digest.data))))
      = ["argon2id".data, argonVersionGroup.data, argonParamsGroup.data,
          salt.data, digest.data] := by
    have hv : '$' ∉ "argon2id".data := by decide
    have := splitDollars_append_free "argon2id".data hv _ _ _
      (by rw [splitDollars_dollar_cons, h1])
    simpa using this
  have hdata : (encodeHash salt digest).data
      = '$' :: ("argon2id".data
          ++ '$' :: (argonVersionGroup.data
            ++ '$' :: (argonParamsGroup.data ++ '$' :: (salt.data ++ '$' :: digest.data)))) := by
    simp [encodeHash, String.data_append]
  rw [parseHash, hdata, splitDollars_dollar_cons, h0]
  simp

/-- Claim C5: For a well-formed salt and a collision-free digest primitive:
`verify(p, hash(p))` is `true`; for `p' ≠ p`, `verify(p', hash(p))` is
`false`; and `verify` on any unparsable encoded hash returns `false`
instead of raising, so a malformed hash is indistinguishable from a
wrong password. -/
theorem c5_hash_verify_consistency
    (digestFn : String → String → String) (salt p p' m : String)
    (hsalt : '$' ∉ salt.data)
    (hdig : '$' ∉ (digestFn p salt).data)
    (hcol : ∀ a b, digestFn a salt = digestFn b salt → a = b)
    (hne : p' ≠ p) (hm : parseHash m = none) :
    hash_password digestFn salt p = .ok (encodeHash salt (digestFn p salt))
    ∧ verify_password digestFn p (encodeHash salt (digestFn p salt)) = true
    ∧ verify_password digestFn p' (encodeHash salt (digestFn p salt)) = false
    ∧ verify_password digestFn p' m = false := by
  have hparse := parseHash_encodeHash salt (digestFn p salt) hsalt hdig
  refine ⟨rfl, ?_, ?_, ?_⟩
  · simp [verify_password, hparse]
  · have : digestFn p' salt ≠ digestFn p salt := fun hEq => hne (hcol p' p hEq)
    simp [verify_password, hparse, this]
  · simp [verify_password, hm]

/-- Witness for C5 with a concrete collision-free digest primitive. -/
theorem c5_hash_verify_consistency_witness :
    hash_password (fun a _ => a) "somesalt" "pw"
      = .ok (encodeHash "somesalt" ((fun (a : String) (_ : String) => a) "pw" "somesalt"))
    ∧ verify_password (fun a _ => a) "pw"
        (encodeHash "somesalt" ((fun (a : String) (_ : String) => a) "pw" "somesalt")) = true
    ∧ verify_password (fun a _ => a) "pw2"
        (encodeHash "somesalt" ((fun (a : String) (_ : String) => a) "pw" "somesalt")) = false
    ∧ verify_password (fun a _ => a) "pw2" "malformed" = false :=
  c5_hash_verify_consistency (fun a _ => a) "somesalt" "pw" "pw2" "malformed"
    (by decide) (by decide) (fun a b h => h) (by decide) (by decide)

/-! ### UUID lemmas for C3 -/

theorem hexVal_hexDigit : ∀ n < 16, hexVal (hexDigit n) = n := by decide

theorem hexDigit_ne_dash : ∀ n < 16, hexDigit n ≠ '-' := by decide

theorem hexBytes_append (l₁ l₂ : List Nat) :
    hexBytes (l₁ ++ l₂) = hexBytes l₁ ++ hexBytes l₂ := by
  induction l₁ with
  | nil => rfl
  | cons b bs ih => simp [hexBytes, ih]

theorem unhexPairs_hexBytes (bs : List Nat) (h : ∀ b ∈ bs, b < 256) :
    unhexPairs (hexBytes bs) = bs := by
  induction bs with
  | nil => rfl
  | cons b bs ih =>
    have hb : b < 256 := h b (List.mem_cons_self b bs)
    have h1 : hexVal (hexDigit (b / 16)) = b / 16 :=
      hexVal_hexDigit _ (by omega)
    have h2 : hexVal (hexDigit (b % 16)) = b % 16 :=
      hexVal_hexDigit _ (by omega)
    simp only [hexBytes, unhexPairs, h1, h2, List.cons.injEq]
    exact ⟨Nat.div_add_mod b 16,
      ih (fun x hx => h x (List.mem_cons_of_mem b hx))⟩

theorem filter_hexBytes_dash (bs : List Nat) (h : ∀ b ∈ bs, b < 256) :
    (hexBytes bs).filter (fun c => c != '-') = hexBytes bs := by
  induction bs with
  | nil => rfl
  | cons b bs ih =>
    have hb : b < 256 := h b (List.mem_cons_self b bs)
    have d1 : (hexDigit (b / 16) != '-') = true := by
      simpa using hexDigit_ne_dash _ (by omega)
    have d2 : (hexDigit (b % 16) != '-') = true := by
      simpa using hexDigit_ne_dash _ (by omega)
    simp [hexBytes, List.filter_cons, d1, d2,
      ih (fun x hx => h x (List.mem_cons_of_mem b hx))]

theorem uuid_segments (bs : List Nat) :
    bs.take 4 ++ (bs.drop 4).take 2 ++ (bs.drop 6).take 2
      ++ (bs.drop 8).take 2 ++ bs.drop 10 = bs := by
  rw [List.append_assoc, List.append_assoc, List.append_assoc]
  have e6 : bs.drop 6 = (bs.drop 4).drop 2 := (List.drop_drop 2 4 bs).symm
  have e8 : bs.drop 8 = (bs.drop 6).drop 2 := (List.drop_drop 2 6 bs).symm
  have e10 : bs.drop 10 = (bs.drop 8).drop 2 := (List.drop_drop 2 8 bs).symm
  rw [e10, List.take_append_drop, e8, List.take_append_drop, e6,
    List.take_append_drop, List.take_append_drop]

/-- Decoding inverts the UUID string rendering on byte lists. -/
theorem uuidDecode_uuidString (bs : List Nat) (h : ∀ b ∈ bs, b < 256) :
    uuidDecode (uuidString bs) = bs := by
  have hA := filter_hexBytes_dash (bs.take 4)
    (fun b hb => h b (List.take_subset _ _ hb))
  have hB := filter_hexBytes_dash ((bs.drop 4).take 2)
    (fun b hb => h b (List.drop_subset _ _ (List.take_subset _ _ hb)))
  have hC := filter_hexBytes_dash ((bs.drop 6).take 2)
    (fun b hb => h b (List.drop_subset _ _ (List.take_subset _ _ hb)))
  have hD := filter_hexBytes_dash ((bs.drop 8).take 2)
    (fun b hb => h b (List.drop_subset _ _ (List.take_subset _ _ hb)))
  have hE := filter_hexBytes_dash (bs.drop 10)
    (fun b hb => h b (List.drop_subset _ _ hb))
  show unhexPairs ((uuidChars bs).filter (fun c => c != '-')) = bs
  unfold uuidChars
  simp only [List.filter_append, List.filter_cons, bne_self_eq_false,
    Bool.false_eq_true, if_false, hA, hB, hC, hD, hE]
  rw [← hexBytes_append, ← hexBytes_append, ← hexBytes_append,
    ← hexBytes_append, uuid_segments]
  exact unhexPairs_hexBytes bs h

/-- Normalizing preserves byte bounds. -/
theorem uuidV4Bytes_valid (bs : List Nat) (h : ∀ b ∈ bs, b < 256) :
    ∀ b ∈ uuidV4Bytes bs, b < 256 := by
  intro b hb
  unfold uuidV4Bytes setVariant at hb
  rcases List.mem_or_eq_of_mem_set hb with hb' | rfl
  · unfold setVersion at hb'
    rcases List.mem_or_eq_of_mem_set hb' with hb'' | rfl
    · exact h b hb''
    · omega
  · omega

theorem getD_set_ne_aux (l : List Nat) (i j v : Nat) (hij : j ≠ i) :
    (l.set i v).getD j 0 = l.getD j 0 := by
  simp [List.getD_eq_getElem?_getD, List.getElem?_set_ne (Ne.symm hij)]

theorem getD_set_self_aux (l : List Nat) (i v : Nat) (hi : i < l.length) :
    (l.set i v).getD i 0 = v := by
  simp [List.getD_eq_getElem?_getD, List.getElem?_set_self hi]

/-- A 16-byte draw of all zeros. -/
def uuidBytesA : List Nat := List.replicate 16 0

/-- The same draw except byte 6 is `0x10`: only version-nibble bits
differ. -/
def uuidBytesB : List Nat := uuidBytesA.set 6 16

/-- Counterexample to claim C3: Two distinct 16-byte CSPRNG draws that yield
the very same refresh token: they differ only in the version nibble of
byte 6, which `Uuid::new_v4` overwrites.  So the generator does *not*
depend injectively on 128 random bits — its entropy is below 128 bits,
refuting the "≥128 bits" part of the claim. -/
theorem c3_uuid_not_128_bits :
    uuidBytesA ≠ uuidBytesB
    ∧ uuidBytesA.length = 16 ∧ uuidBytesB.length = 16
    ∧ uuidBytesA.all (fun b => decide (b < 256)) = true
    ∧ uuidBytesB.all (fun b => decide (b < 256)) = true
    ∧ generate_refresh_token uuidBytesA = generate_refresh_token uuidBytesB := by
  decide

/-- Claim C3 as amended: Every refresh token is the UUID rendering of the
normalized bytes, and equal tokens force equal normalized bytes: the
generator depends injectively on the 122 bits that survive
normalization (all bytes except byte 6, whose high nibble is forced to
`0x4`, and byte 8, whose top two bits are forced to `0b10`), i.e. the
token carries 122 bits of CSPRNG entropy, not 128. -/
theorem c3_uuid_122_bits
    (bs bs' : List Nat)
    (h : ∀ b ∈ bs, b < 256) (h' : ∀ b ∈ bs', b < 256) :
    (generate_refresh_token bs = generate_refresh_token bs'
      ↔ uuidV4Bytes bs = uuidV4Bytes bs')
    ∧ (uuidV4Bytes bs).length = bs.length
    ∧ (∀ i, i ≠ 6 → i ≠ 8 → (uuidV4Bytes bs).getD i 0 = bs.getD i 0)
    ∧ (6 < bs.length →
        (uuidV4Bytes bs).getD 6 0 = bs.getD 6 0 % 16 + 64)
    ∧ (8 < bs.length →
        (uuidV4Bytes bs).getD 8 0 = bs.getD 8 0 % 64 + 128) := by
  refine ⟨⟨?_, ?_⟩, ?_, ?_, ?_, ?_⟩
  · intro hEq
    have := congrArg uuidDecode hEq
    rwa [show generate_refresh_token bs = uuidString (uuidV4Bytes bs) from rfl,
      show generate_refresh_token bs' = uuidString (uuidV4Bytes bs') from rfl,
      uuidDecode_uuidString _ (uuidV4Bytes_valid bs h),
      uuidDecode_uuidString _ (uuidV4Bytes_valid bs' h')] at this
  · intro hEq
    unfold generate_refresh_token
    rw [hEq]
  · simp [uuidV4Bytes, setVariant, setVersion, List.length_set]
  · intro i h6 h8
    unfold uuidV4Bytes setVariant setVersion
    rw [getD_set_ne_aux _ _ _ _ h8, getD_set_ne_aux _ _ _ _ h6]
  · intro h6
    unfold uuidV4Bytes setVariant setVersion
    rw [getD_set_ne_aux _ _ _ _ (by omega),
      getD_set_self_aux _ _ _ h6]
  · intro h8
    unfold uuidV4Bytes setVariant
    have hlen : 8 < (setVersion bs).length := by
      simpa [setVersion, List.length_set] using h8
    rw [getD_set_self_aux _ _ _ hlen,
      show (setVersion bs).getD 8 0 = bs.getD 8 0 from
        getD_set_ne_aux _ _ _ _ (by omega)]

/-- Witness for C3 (amended): the two colliding draws of the
counterexample indeed normalize to the same byte sequence. -/
theorem c3_uuid_122_bits_witness :
    (generate_refresh_token uuidBytesA = generate_refresh_token uuidBytesB
      ↔ uuidV4Bytes uuidBytesA = uuidV4Bytes uuidBytesB)
    ∧ (uuidV4Bytes uuidBytesA).length = uuidBytesA.length
    ∧ (∀ i, i ≠ 6 → i ≠ 8 →
        (uuidV4Bytes uuidBytesA).getD i 0 = uuidBytesA.getD i 0)
    ∧ (6 < uuidBytesA.length →
        (uuidV4Bytes uuidBytesA).getD 6 0 = uuidBytesA.getD 6 0 % 16 + 64)
    ∧ (8 < uuidBytesA.length →
        (uuidV4Bytes uuidBytesA).getD 8 0 = uuidBytesA.getD 8 0 % 64 + 128) :=
  c3_uuid_122_bits uuidBytesA uuidBytesB
    (by intro b hb; simp [uuidBytesA] at hb; omega)
    (by
      intro b hb
      rcases List.mem_or_eq_of_mem_set hb with hb' | rfl
      · simp [uuidBytesA] at hb'; omega
      · omega)

end BgxBackend
